import Mathlib

/-!
Shallow embedding of the junocash MSR tuning subsystem
(`src/crypto/msr_item.h`, `src/crypto/msr.cpp`, `src/crypto/randomx_msr.cpp`,
`src/crypto/randomx_fix.cpp`) and proofs about the properties claimed of it.

Machine integers (`uint32_t`, `uint64_t`) are embedded as `Nat`; every value
stored in a register comes either from a preset constant (< 2^64) or from the
mock device state, so overflow never arises in the modelled operations
(bitwise `&&&`/`|||`/`^^^` cannot exceed their 64-bit operands' range).
The per-logical-CPU register device is embedded as a mock backend: a register
file `regs : Int -> Nat -> Nat` plus per-(cpu, register) success predicates
for the single-shot `pread`/`pwrite` calls, and a trace listing every
attempted register write.
-/

set_option autoImplicit false

namespace JunoMsr

/-- `MsrItem::kNoMask = std::numeric_limits<uint64_t>::max()` from msr_item.h. -/
def kNoMask : Nat := 2 ^ 64 - 1

/-- `MsrItem` from msr_item.h: register index (`u32`), value (`u64`),
mask (`u64`, defaulting to `kNoMask`). -/
structure MsrItem where
  reg : Nat
  value : Nat
  mask : Nat
deriving DecidableEq, Repr

/-- Default-constructed `MsrItem()`: `m_reg = 0`, `m_value = 0`, `m_mask = kNoMask`. -/
def MsrItem.empty : MsrItem := ⟨0, 0, kNoMask⟩

/-- `MsrItem::isValid(): return m_reg > 0`. -/
def MsrItem.isValid (it : MsrItem) : Bool := 0 < it.reg

/-- `MsrItem::maskedValue`: `(new_value & mask) | (old_value & ~mask)`.
The C++ `~mask` on `uint64_t` is embedded as `mask ^^^ kNoMask`. -/
def maskedValue (old_value new_value mask : Nat) : Nat :=
  (new_value &&& mask) ||| (old_value &&& (mask ^^^ kNoMask))

/-- `CPUVendor` from randomx_msr.cpp. -/
inductive CPUVendor where
  | unknown
  | amd
  | intel
deriving DecidableEq, Repr

/-- `AMDFamily` from randomx_msr.cpp. -/
inductive AMDFamily where
  | unknown
  | ryzen17h
  | ryzen19h
  | zen4
  | zen5
deriving DecidableEq, Repr

/-- `MsrMod` from randomx_msr.cpp. -/
inductive MsrMod where
  | modNone
  | ryzen17h
  | ryzen19h
  | zen4
  | zen5
  | intel
  | custom
deriving DecidableEq, Repr

/-- `DetectAMDFamily` from randomx_msr.cpp, as a function of the raw CPUID
leaf-1 `eax` value (the identification instruction itself is the input):
`family = ((eax >> 8) & 0xF) + ((eax >> 20) & 0xFF)`,
`model = ((eax >> 4) & 0xF) | ((eax >> 12) & 0xF0)`. -/
def detectAMDFamily (eax : Nat) : AMDFamily :=
  let family := ((eax >>> 8) &&& 0xF) + ((eax >>> 20) &&& 0xFF)
  let model := ((eax >>> 4) &&& 0xF) ||| ((eax >>> 12) &&& 0xF0)
  if family = 0x17 then
    .ryzen17h
  else if family = 0x19 then
    if 0x10 ≤ model ∧ model < 0x70 then .zen4
    else if 0x70 ≤ model then .zen5
    else .ryzen19h
  else .unknown

/-- `DetectMsrMod` from randomx_msr.cpp, as a function of the detected vendor
and the raw CPUID leaf-1 `eax` value. -/
def detectMsrMod (vendor : CPUVendor) (eax : Nat) : MsrMod :=
  match vendor with
  | .amd =>
    match detectAMDFamily eax with
    | .ryzen17h => .ryzen17h
    | .ryzen19h => .ryzen19h
    | .zen4 => .zen4
    | .zen5 => .zen5
    | .unknown => .modNone
  | .intel => .intel
  | .unknown => .modNone

/-- The static `msrPresets` table from randomx_msr.cpp, indexed by `MsrMod`. -/
def msrPresets : MsrMod → List MsrItem
  | .modNone => []
  | .ryzen17h =>
    [⟨0xC0011020, 0, kNoMask⟩,
     ⟨0xC0011021, 0x40, 0x20 ^^^ kNoMask⟩,
     ⟨0xC0011022, 0x1510000, kNoMask⟩,
     ⟨0xC001102b, 0x2000cc16, kNoMask⟩]
  | .ryzen19h =>
    [⟨0xC0011020, 0x0004480000000000, kNoMask⟩,
     ⟨0xC0011021, 0x001c000200000040, 0x20 ^^^ kNoMask⟩,
     ⟨0xC0011022, 0xc000000401570000, kNoMask⟩,
     ⟨0xC001102b, 0x2000cc10, kNoMask⟩]
  | .zen4 =>
    [⟨0xC0011020, 0x0004400000000000, kNoMask⟩,
     ⟨0xC0011021, 0x0004000000000040, 0x20 ^^^ kNoMask⟩,
     ⟨0xC0011022, 0x8680000401570000, kNoMask⟩,
     ⟨0xC001102b, 0x2040cc10, kNoMask⟩]
  | .zen5 =>
    [⟨0xC0011020, 0x0004400000000000, kNoMask⟩,
     ⟨0xC0011021, 0x0004000000000040, 0x20 ^^^ kNoMask⟩,
     ⟨0xC0011022, 0x8680000401570000, kNoMask⟩,
     ⟨0xC001102b, 0x2040cc10, kNoMask⟩]
  | .intel => [⟨0x1a4, 0xf, kNoMask⟩]
  | .custom => []

/-- Mock register backend standing for the per-logical-CPU `/dev/cpu/<id>/msr`
devices, the `allow_writes`/modprobe availability probe and the CPUID CAT-L3
probe. `regs` is the current register file; `readOk`/`writeOk` say whether a
single-shot `pread`/`pwrite` at a given (cpu, register) succeeds; `writes`
records every attempted register write (cpu, register, value), successful or
not, in program order. -/
structure Backend where
  regs : Int → Nat → Nat
  readOk : Int → Nat → Bool
  writeOk : Int → Nat → Bool
  numCpus : Nat
  available : Bool
  catL3 : Bool
  writes : List (Int × Nat × Nat)

/-- `GetCPUList` from msr.cpp: cpu ids `0 .. num-1` in ascending order. -/
def cpuList (n : Nat) : List Int := (List.range n).map Int.ofNat

/-- The cpu-id normalisation in `msr_open` (msr.cpp): a negative cpu id means
"the first cpu of the list", i.e. cpu 0 (or 0 when the list is empty). -/
def normCpu (cpu : Int) : Int := if cpu < 0 then 0 else cpu

/-- `Msr::rdmsr` from msr.cpp: open the device for `cpu` (negative id
normalised) and `pread` 8 bytes at offset `reg`; `none` when open/pread fails. -/
def rdmsr (b : Backend) (reg : Nat) (cpu : Int) : Option Nat :=
  let c := normCpu cpu
  if b.readOk c reg then some (b.regs c reg) else none

/-- Pointwise update of a register file at one (cpu, register) cell. -/
def setReg (f : Int → Nat → Nat) (c : Int) (r v : Nat) : Int → Nat → Nat :=
  fun c2 r2 => if c2 = c ∧ r2 = r then v else f c2 r2

/-- `Msr::wrmsr` from msr.cpp: open the device for `cpu` (negative id
normalised) and `pwrite` 8 bytes at offset `reg`. The attempt is always
recorded in the trace; the register file changes only on success. -/
def wrmsr (b : Backend) (reg : Nat) (value : Nat) (cpu : Int) : Bool × Backend :=
  let c := normCpu cpu
  if b.writeOk c reg then
    (true, { b with regs := setReg b.regs c reg value,
                    writes := b.writes ++ [(c, reg, value)] })
  else
    (false, { b with writes := b.writes ++ [(c, reg, value)] })

/-- `Msr::write(reg, value, cpu, mask, verbose)` from msr.cpp: fail fast when
unavailable; for a non-`kNoMask` mask first `rdmsr` the current value (aborting
on read failure) and merge via `maskedValue`; then `wrmsr`. -/
def msrWrite (b : Backend) (reg : Nat) (value : Nat) (cpu : Int) (mask : Nat) :
    Bool × Backend :=
  if b.available then
    if mask ≠ kNoMask then
      match rdmsr b reg cpu with
      | none => (false, b)
      | some old_value => wrmsr b reg (maskedValue old_value value mask) cpu
    else
      wrmsr b reg value cpu
  else
    (false, b)

/-- `Msr::write(item, cpu, verbose)` from msr.cpp. -/
def msrWriteItem (b : Backend) (it : MsrItem) (cpu : Int) : Bool × Backend :=
  msrWrite b it.reg it.value cpu it.mask

/-- `Msr::read(reg, cpu, verbose)` from msr.cpp: returns `MsrItem(reg, value)`
on device-read success and the default-constructed `MsrItem()` on failure.
Note the source does not consult `isAvailable()` here. -/
def msrRead (b : Backend) (reg : Nat) (cpu : Int) : MsrItem :=
  match rdmsr b reg cpu with
  | some v => ⟨reg, v, kNoMask⟩
  | none => MsrItem.empty

/-- The loop body of `Msr::write(Callback&&)` from msr.cpp: run the callback on
each cpu of the list in order, stopping at (and returning) the first failure. -/
def forEachCpuGo (f : Int → Backend → Bool × Backend) :
    List Int → Backend → Bool × Backend
  | [], b => (true, b)
  | c :: rest, b =>
    match f c b with
    | (true, b1) => forEachCpuGo f rest b1
    | (false, b1) => (false, b1)

/-- `Msr::write(Callback&&)` from msr.cpp: broadcast the callback over
`GetCPUList()`. -/
def msrBroadcast (f : Int → Backend → Bool × Backend) (b : Backend) :
    Bool × Backend :=
  forEachCpuGo f (cpuList b.numCpus) b

/-- The backup-capture loop of `ApplyMsrPreset` (randomx_msr.cpp): for each
preset item, `msr->read(item.reg())` (cpu defaulted to -1); an invalid result
aborts the loop — the source then clears `original_msrs` and fails, which is
rendered here as `none`. `some backup` holds the captured items in order. -/
def backupLoop (b : Backend) : List MsrItem → Option (List MsrItem)
  | [] => some []
  | it :: rest =>
    let orig := msrRead b it.reg (-1)
    if orig.isValid then
      match backupLoop b rest with
      | some l => some (orig :: l)
      | none => none
    else
      none

/-- The per-item half of the broadcast callbacks in randomx_msr.cpp (shared by
`ApplyMsrPreset`'s preset loop and `Destroy`'s restore loop): write each item
to `cpu`, stopping at the first failure. -/
def writeItemsLoop (items : List MsrItem) (cpu : Int) (b : Backend) :
    Bool × Backend :=
  match items with
  | [] => (true, b)
  | it :: rest =>
    match msrWriteItem b it cpu with
    | (true, b1) => writeItemsLoop rest cpu b1
    | (false, b1) => (false, b1)

/-- The broadcast callback of `ApplyMsrPreset` (randomx_msr.cpp): write every
preset item to `cpu`; then, when cache QoS is active, assign class-of-service
0 (register 0xC8F value 0) to cpus in the affinity set, and for other cpus
disable L3 for class 1 (register 0xC91 value 0, retried once with value 1)
and assign class-of-service 1 (register 0xC8F value `1 << 32`). -/
def applyCpu (preset : List MsrItem) (cacheEnabled : List Int) (doQos : Bool)
    (cpu : Int) (b : Backend) : Bool × Backend :=
  match writeItemsLoop preset cpu b with
  | (false, b1) => (false, b1)
  | (true, b1) =>
    if doQos then
      if cpu ∈ cacheEnabled then
        msrWrite b1 0xC8F 0 cpu kNoMask
      else
        match msrWrite b1 0xC91 0 cpu kNoMask with
        | (true, b2) => msrWrite b2 0xC8F (2 ^ 32) cpu kNoMask
        | (false, b2) =>
          match msrWrite b2 0xC91 1 cpu kNoMask with
          | (true, b3) => msrWrite b3 0xC8F (2 ^ 32) cpu kNoMask
          | (false, b3) => (false, b3)
    else
      (true, b1)

/-- `ApplyMsrPreset` from randomx_msr.cpp. Returns (success, the new contents
of the `original_msrs` global, the backend after all attempted operations).
`prevBackup` is the incoming contents of `original_msrs`: the source returns
before touching it when the accessor is unavailable, clears it on a backup
read failure, and otherwise leaves the captured backup in place even when the
broadcast apply fails. `cache_qos` is downgraded when the CAT-L3 probe fails;
the QoS branch is skipped entirely when the affinity list is empty. -/
def applyMsrPreset (preset : List MsrItem) (affin : List Int) (cacheQos : Bool)
    (prevBackup : List MsrItem) (b : Backend) :
    Bool × List MsrItem × Backend :=
  if b.available then
    match backupLoop b preset with
    | none => (false, [], b)
    | some backup =>
      let qosDisabled := affin.isEmpty
      let cacheQos2 := if cacheQos && !qosDisabled && !b.catL3 then false else cacheQos
      let doQos := cacheQos2 && !qosDisabled
      let res := msrBroadcast (applyCpu preset affin doQos) b
      (res.1, backup, res.2)
  else
    (false, prevBackup, b)

/-- The static state of `RandomX_Msr` (randomx_msr.cpp): `m_initialized`,
`m_enabled`, `m_cache_qos` and the file-static `original_msrs` backup list. -/
structure MsrState where
  m_initialized : Bool
  m_enabled : Bool
  m_cache_qos : Bool
  original_msrs : List MsrItem
deriving DecidableEq, Repr

/-- The state at process start: all flags false, empty backup. -/
def initialMsrState : MsrState := ⟨false, false, false, []⟩

/-- `RandomX_Msr::Init` from randomx_msr.cpp, as a function of the CPUID
detection inputs (vendor, leaf-1 `eax`), the caller's arguments, the current
static state and the backend. Returns (returned bool, new state, new backend).
The `mod >= MSR_MOD_MAX` guard of the source cannot fire since `DetectMsrMod`
only returns enumerators below `MSR_MOD_MAX`. -/
def rmsInit (vendor : CPUVendor) (eax : Nat) (affin : List Int)
    (enableCacheQos : Bool) (st : MsrState) (b : Backend) :
    Bool × MsrState × Backend :=
  if st.m_initialized then
    (st.m_enabled, st, b)
  else
    let mod := detectMsrMod vendor eax
    if mod = .modNone then
      (false, ⟨true, false, enableCacheQos, st.original_msrs⟩, b)
    else
      let preset := msrPresets mod
      if preset.isEmpty then
        (false, ⟨true, false, enableCacheQos, st.original_msrs⟩, b)
      else
        let res := applyMsrPreset preset affin enableCacheQos st.original_msrs b
        (res.1, ⟨true, res.1, enableCacheQos, res.2.1⟩, res.2.2)

/-- `RandomX_Msr::Destroy` from randomx_msr.cpp: return immediately when
`!m_initialized || original_msrs.empty()`, or when the accessor is unavailable
(in that case without clearing any state); otherwise broadcast-write every
backup item to every cpu (via `Msr::write(Callback&&)`), then clear the backup
and reset `m_initialized`/`m_enabled`. -/
def rmsDestroy (st : MsrState) (b : Backend) : MsrState × Backend :=
  if ¬st.m_initialized ∨ st.original_msrs.isEmpty then
    (st, b)
  else if b.available then
    let res := msrBroadcast (fun cpu bb => writeItemsLoop st.original_msrs cpu bb) b
    (⟨false, false, st.m_cache_qos, []⟩, res.2)
  else
    (st, b)

/-!
Embedding of the crash-recovery frame (randomx_fix.cpp). The per-thread
thread-local state and the process-wide static are modelled explicitly; the
signal machinery appears only through which branch of `MainLoopHandler` a
delivered fault takes on a given thread.
-/

/-- The thread-local state of randomx_fix.cpp: `exception_frame_active`, and
whether `sigsetjmp` has ever captured a resumable context into
`exception_env` on this thread. -/
structure FixThreadState where
  exception_frame_active : Bool
  contextCaptured : Bool
deriving DecidableEq, Repr

/-- Thread-local initial values: `exception_frame_active = false`, and no
context captured (`exception_env` starts uninitialised). -/
def FixThreadState.fresh : FixThreadState := ⟨false, false⟩

/-- The process-wide static `RandomX_Fix::m_initialized`. -/
structure FixProcessState where
  m_initialized : Bool
deriving DecidableEq, Repr

/-- `RandomX_Fix::SetupMainLoopExceptionFrame` from randomx_fix.cpp, run by
one thread: return early when `m_initialized`; otherwise install the
SIGSEGV/SIGILL handlers (`sigactionOk` says whether both `sigaction` calls
succeed) and set `m_initialized`. The body touches neither
`exception_frame_active` nor `exception_env`, so the calling thread's state
is returned unchanged on every path. -/
def setupMainLoopExceptionFrame (sigactionOk : Bool) (p : FixProcessState)
    (t : FixThreadState) : FixProcessState × FixThreadState :=
  if p.m_initialized then (p, t)
  else if sigactionOk then (⟨true⟩, t)
  else (p, t)

/-- The two exits of `MainLoopHandler` (randomx_fix.cpp): restore the default
disposition and re-raise the signal, or `siglongjmp` back to the captured
point. -/
inductive HandlerBranch where
  | reraise
  | resume
deriving DecidableEq, Repr

/-- `MainLoopHandler` from randomx_fix.cpp: branch on the calling thread's
`exception_frame_active` flag. -/
def mainLoopHandler (t : FixThreadState) : HandlerBranch :=
  if t.exception_frame_active then .resume else .reraise

/-- A backend whose availability probe failed (neither `allow_writes` nor
modprobe succeeded) but whose register devices are readable: register reads
still work at the device level. -/
def bC5 : Backend :=
  { regs := fun _ _ => 42, readOk := fun _ _ => true, writeOk := fun _ _ => true,
    numCpus := 1, available := false, catL3 := false, writes := [] }

/-- A backend on which every register write fails (e.g. the devices became
read-only), with two logical CPUs. -/
def bC2 : Backend :=
  { regs := fun _ _ => 0, readOk := fun _ _ => true, writeOk := fun _ _ => false,
    numCpus := 2, available := true, catL3 := false, writes := [] }

/-- An `Enabled` controller state holding a two-item backup. -/
def stC2 : MsrState :=
  ⟨true, true, false, [⟨0xC0011020, 5, kNoMask⟩, ⟨0xC0011021, 6, kNoMask⟩]⟩

/-- A backend with one logical CPU where every preset register is writable but
the two cache-QoS registers (0xC8F, 0xC91) reject writes, so `Init`'s
broadcast apply fails after the preset items have been written. -/
def bC3 : Backend :=
  { regs := fun _ _ => 0, readOk := fun _ _ => true,
    writeOk := fun _ r => !(r == 0xC8F || r == 0xC91),
    numCpus := 1, available := true, catL3 := true, writes := [] }

/-- The result of `Init` on `bC3` for an AMD family-0x17 CPU (leaf-1 eax
0x800F00) with cache QoS requested for mining cpu 5: the apply broadcast
fails at the QoS writes, so `Init` fails, reaching the Disabled state with a
retained four-item backup. -/
def c3run : Bool × MsrState × Backend :=
  rmsInit .amd 0x800F00 [5] true initialMsrState bC3

/-- A backend where the backup read of preset register 0xC0011022 fails (the
other reads and all writes succeed). -/
def bC4a : Backend :=
  { regs := fun _ _ => 3, readOk := fun _ r => !(r == 0xC0011022),
    writeOk := fun _ _ => true,
    numCpus := 1, available := true, catL3 := false, writes := [] }

/-- A fully working backend: every device read and write succeeds. -/
def bC4b : Backend :=
  { regs := fun _ _ => 3, readOk := fun _ _ => true, writeOk := fun _ _ => true,
    numCpus := 1, available := true, catL3 := false, writes := [] }

/-- The result of a first `Init` on `bC4a` (AMD family 0x17): the backup read
of 0xC0011022 fails, so `Init` fails. -/
def c4run1 : Bool × MsrState × Backend :=
  rmsInit .amd 0x800F00 [] false initialMsrState bC4a

/-- A backend where the backup read of preset register 0xC0011022 fails while
everything else works; used to exercise `Init`'s read-failure abort. -/
def bC6 : Backend :=
  { regs := fun _ _ => 9, readOk := fun _ r => !(r == 0xC0011022),
    writeOk := fun _ _ => true,
    numCpus := 2, available := true, catL3 := false, writes := [] }

/-- `b2` has the same device environment as `b` (only the register file and
the write trace may differ). -/
def sameEnv (b b2 : Backend) : Prop :=
  b2.available = b.available ∧ b2.readOk = b.readOk ∧ b2.writeOk = b.writeOk ∧
  b2.numCpus = b.numCpus ∧ b2.catL3 = b.catL3

/-- Every device read and write succeeds on `b`, and the accessor is
available. -/
def allOk (b : Backend) : Prop :=
  b.available = true ∧ (∀ c r, b.readOk c r = true) ∧ (∀ c r, b.writeOk c r = true)

/-- The value written last for register `r` by a raw item list (the restore
loop overwrites earlier writes to the same register). -/
def lastValue : List MsrItem → Nat → Option Nat
  | [], _ => none
  | it :: rest, r =>
    match lastValue rest r with
    | some v => some v
    | none => if it.reg = r then some it.value else none

/-- A heterogeneous backend: cpu 1's registers hold 200, every other cpu's
hold 100; every device read and write succeeds. -/
def bC7 : Backend :=
  { regs := fun c _ => if c = 1 then 200 else 100, readOk := fun _ _ => true,
    writeOk := fun _ _ => true,
    numCpus := 2, available := true, catL3 := false, writes := [] }

/-- The `Init` run on the heterogeneous backend `bC7` (AMD family 0x17, no
affinities, no cache QoS): every read and write succeeds, so `Init` returns
true. -/
def c7run : Bool × MsrState × Backend :=
  rmsInit .amd 0x800F00 [] false initialMsrState bC7

/-- A homogeneous all-successful backend: every register of every cpu holds
100. -/
def bC7w : Backend :=
  { regs := fun _ _ => 100, readOk := fun _ _ => true, writeOk := fun _ _ => true,
    numCpus := 2, available := true, catL3 := false, writes := [] }

/-- A concrete backend whose device reads and writes all succeed, with every
register holding 7. -/
def bW10 : Backend :=
  { regs := fun _ _ => 7, readOk := fun _ _ => true, writeOk := fun _ _ => true,
    numCpus := 1, available := true, catL3 := false, writes := [] }

/-!  Helper lemmas.  -/

/-- `Msr::read` of register index 0 always yields an invalid item, whether the
device read succeeds or fails. -/
theorem msrRead_zero_invalid (b : Backend) (cpu : Int) :
    (msrRead b 0 cpu).isValid = false := by
  unfold msrRead
  cases rdmsr b 0 cpu <;> simp [MsrItem.isValid, MsrItem.empty]

/-- The backup loop fails (clearing the backup) as soon as some item of the
list reads back invalid. -/
theorem backupLoop_eq_none (b : Backend) (items : List MsrItem)
    (h : ∃ it ∈ items, (msrRead b it.reg (-1)).isValid = false) :
    backupLoop b items = none := by
  induction items with
  | nil => simp at h
  | cons it rest ih =>
    obtain ⟨x, hx, hinv⟩ := h
    unfold backupLoop
    rcases List.mem_cons.mp hx with hx0 | hmem
    · rw [hx0] at hinv
      simp [hinv]
    · cases hval : (msrRead b it.reg (-1)).isValid
      · simp [hval]
      · simp [hval, ih ⟨x, hmem, hinv⟩]

/-- C9: `MsrItem::maskedValue` is the pure function
`(new & mask) | (old & ~mask)` (with `~` the 64-bit complement,
`kNoMask ^^^ mask`), and with the all-ones mask it returns the new value
unchanged. -/
theorem c9_maskedValue_pure (old_value new_value mask : Nat) :
    maskedValue old_value new_value mask
      = (new_value &&& mask) ||| (old_value &&& (kNoMask ^^^ mask)) ∧
    (new_value < 2 ^ 64 → maskedValue old_value new_value kNoMask = new_value) := by
  constructor
  · unfold maskedValue
    rw [Nat.xor_comm]
  · intro h
    show (new_value &&& kNoMask) ||| (old_value &&& (kNoMask ^^^ kNoMask)) = new_value
    rw [Nat.xor_self, Nat.and_zero, Nat.or_zero]
    show new_value &&& (2 ^ 64 - 1) = new_value
    rw [Nat.and_pow_two_sub_one_eq_mod, Nat.mod_eq_of_lt h]

/-- C9 witness: the all-ones-mask identity evaluated at a concrete input. -/
theorem c9_maskedValue_pure_witness :
    maskedValue 0xdeadbeef 0x1234 kNoMask = 0x1234 :=
  (c9_maskedValue_pure 0xdeadbeef 0x1234 0).2 (by decide)

/-- C1 (code bug): `SetupMainLoopExceptionFrame` leaves the calling thread's
state untouched on every path — it never sets `exception_frame_active` and
never captures a context — so on a thread that has just armed the frame, a
delivered fault takes the re-raise branch of `MainLoopHandler`, not the
resume branch. -/
theorem c1_arm_never_activates_frame :
    (∀ (sigactionOk : Bool) (p : FixProcessState) (t : FixThreadState),
      (setupMainLoopExceptionFrame sigactionOk p t).2 = t) ∧
    (setupMainLoopExceptionFrame true ⟨false⟩ FixThreadState.fresh).2.exception_frame_active
      = false ∧
    (setupMainLoopExceptionFrame true ⟨false⟩ FixThreadState.fresh).2.contextCaptured
      = false ∧
    mainLoopHandler (setupMainLoopExceptionFrame true ⟨false⟩ FixThreadState.fresh).2
      = .reraise := by
  refine ⟨?_, by decide, by decide, by decide⟩
  intro sigactionOk p t
  unfold setupMainLoopExceptionFrame
  split
  · rfl
  · split <;> rfl

/-- C8: AMD family classification, for every 32-bit feature-leaf value:
family `0x17` maps to Zen1/Zen2 (`ryzen17h`); family `0x19` splits by model
into Zen3 (`ryzen19h`, model < 0x10), Zen4 (0x10 ≤ model ≤ 0x6F) and Zen5
(model ≥ 0x70); any other family is unknown. -/
theorem c8_amd_family_classification (eax : Nat) (_h32 : eax < 2 ^ 32) :
    ((((eax >>> 8) &&& 0xF) + ((eax >>> 20) &&& 0xFF) = 0x17 →
        detectAMDFamily eax = .ryzen17h) ∧
     (((eax >>> 8) &&& 0xF) + ((eax >>> 20) &&& 0xFF) = 0x19 →
        ((eax >>> 4) &&& 0xF) ||| ((eax >>> 12) &&& 0xF0) < 0x10 →
        detectAMDFamily eax = .ryzen19h) ∧
     (((eax >>> 8) &&& 0xF) + ((eax >>> 20) &&& 0xFF) = 0x19 →
        0x10 ≤ ((eax >>> 4) &&& 0xF) ||| ((eax >>> 12) &&& 0xF0) →
        ((eax >>> 4) &&& 0xF) ||| ((eax >>> 12) &&& 0xF0) ≤ 0x6F →
        detectAMDFamily eax = .zen4) ∧
     (((eax >>> 8) &&& 0xF) + ((eax >>> 20) &&& 0xFF) = 0x19 →
        0x70 ≤ ((eax >>> 4) &&& 0xF) ||| ((eax >>> 12) &&& 0xF0) →
        detectAMDFamily eax = .zen5) ∧
     (((eax >>> 8) &&& 0xF) + ((eax >>> 20) &&& 0xFF) ≠ 0x17 →
        ((eax >>> 8) &&& 0xF) + ((eax >>> 20) &&& 0xFF) ≠ 0x19 →
        detectAMDFamily eax = .unknown)) := by
  refine ⟨?_, ?_, ?_, ?_, ?_⟩ <;>
    · intros
      simp only [detectAMDFamily]
      split_ifs <;> first | rfl | omega

/-- C8 witness: the Zen5 boundary (family 0x19, model 0x70) at the concrete
feature-leaf value 0xA70F00. -/
theorem c8_amd_family_classification_witness :
    detectAMDFamily 0xA70F00 = .zen5 :=
  (c8_amd_family_classification 0xA70F00 (by decide)).2.2.2.1 (by decide) (by decide)

/-- C10: `Msr::read` reports success only through the returned item's
validity predicate: for register index 0 the returned item is invalid even
when the underlying device read succeeded (second conjunct shows the device
read did succeed and produced the device value), so the backup loop of `Init`
fails on any preset containing register 0. -/
theorem c10_register_zero_read_indistinguishable (b : Backend) (cpu : Int) :
    (msrRead b 0 cpu).isValid = false ∧
    (b.readOk (normCpu cpu) 0 = true →
      rdmsr b 0 cpu = some (b.regs (normCpu cpu) 0)) ∧
    (∀ items : List MsrItem, (∃ it ∈ items, it.reg = 0) →
      backupLoop b items = none) := by
  refine ⟨msrRead_zero_invalid b cpu, ?_, ?_⟩
  · intro h
    unfold rdmsr
    simp [h]
  · intro items hit
    obtain ⟨it, hmem, hreg⟩ := hit
    refine backupLoop_eq_none b items ⟨it, hmem, ?_⟩
    rw [hreg]
    exact msrRead_zero_invalid b (-1)

/-- C10 witness: on a concrete backend whose device reads all succeed, the
device read of register 0 succeeds yet the backup loop rejects a register-0
item. -/
theorem c10_register_zero_read_indistinguishable_witness :
    rdmsr bW10 0 0 = some (bW10.regs (normCpu 0) 0) ∧
    backupLoop bW10 [MsrItem.empty] = none :=
  ⟨(c10_register_zero_read_indistinguishable bW10 0).2.1 rfl,
   (c10_register_zero_read_indistinguishable bW10 0).2.2 [MsrItem.empty]
     ⟨MsrItem.empty, by simp, rfl⟩⟩

/-- C5 counterexample: on an unavailable accessor, `Msr::read` of register 5
does not fail fast — it performs the device read and returns a *valid* item
carrying the device value 42, contradicting "read returns an empty/invalid
result without attempting device I/O". -/
theorem c5_counterexample :
    bC5.available = false ∧ (msrRead bC5 5 (-1)).isValid = true ∧
    msrRead bC5 5 (-1) = ⟨5, 42, kNoMask⟩ := by
  refine ⟨rfl, ?_, rfl⟩
  rfl

/-- C5 (amended): when the accessor is unavailable, `Msr::write` fails fast —
it returns false leaving the backend (register file and write trace) entirely
untouched — but `Msr::read` is not gated on availability: it attempts the
device read and returns a valid item with the device value whenever that read
succeeds (for a nonzero register index). -/
theorem c5_unavailable_write_fails_fast (b : Backend) (hun : b.available = false) :
    (∀ (reg v : Nat) (cpu : Int) (mask : Nat), msrWrite b reg v cpu mask = (false, b)) ∧
    (∀ (reg : Nat) (cpu : Int), b.readOk (normCpu cpu) reg = true → 0 < reg →
      msrRead b reg cpu = ⟨reg, b.regs (normCpu cpu) reg, kNoMask⟩ ∧
      (msrRead b reg cpu).isValid = true) := by
  constructor
  · intro reg v cpu mask
    unfold msrWrite
    rw [if_neg]
    simp [hun]
  · intro reg cpu hrd hpos
    have hval : msrRead b reg cpu = ⟨reg, b.regs (normCpu cpu) reg, kNoMask⟩ := by
      unfold msrRead rdmsr
      simp [hrd]
    refine ⟨hval, ?_⟩
    rw [hval]
    simpa [MsrItem.isValid] using hpos

/-- C5 witness: the amended statement applied to the concrete unavailable
backend `bC5`. -/
theorem c5_unavailable_write_fails_fast_witness :
    msrWrite bC5 0xC0011020 7 0 kNoMask = (false, bC5) ∧
    msrRead bC5 5 (-1) = ⟨5, bC5.regs 0 5, kNoMask⟩ :=
  ⟨(c5_unavailable_write_fails_fast bC5 rfl).1 0xC0011020 7 0 kNoMask,
   ((c5_unavailable_write_fails_fast bC5 rfl).2 5 (-1) rfl (by decide)).1⟩

/-- C2 counterexample: with two logical CPUs and a two-item backup, when the
very first restore write fails, `Destroy`'s broadcast attempts exactly that
one write — the second backup item and the second logical CPU are never
attempted, contradicting the best-effort claim. -/
theorem c2_counterexample :
    (rmsDestroy stC2 bC2).2.writes = [(0, 0xC0011020, 5)] := by
  rfl

/-- C2 (amended): restoration during `Destroy` is not best-effort: the
broadcast stops at the first failing write, attempting nothing further on any
CPU. The failure is only reported — `Destroy` still clears the backup and
resets the state without raising. -/
theorem c2_restore_stops_at_first_failure (st : MsrState) (b : Backend)
    (n : Nat) (it : MsrItem) (rest : List MsrItem)
    (hinit : st.m_initialized = true)
    (hitems : st.original_msrs = it :: rest)
    (hmask : it.mask = kNoMask)
    (hav : b.available = true)
    (hn : b.numCpus = n + 1)
    (hfail : b.writeOk 0 it.reg = false) :
    rmsDestroy st b =
      (⟨false, false, st.m_cache_qos, []⟩,
       { b with writes := b.writes ++ [(0, it.reg, it.value)] }) := by
  have hstep : writeItemsLoop st.original_msrs 0 b =
      (false, { b with writes := b.writes ++ [(0, it.reg, it.value)] }) := by
    rw [hitems]
    unfold writeItemsLoop msrWriteItem msrWrite
    rw [if_pos hav, if_neg (by rw [hmask]; simp)]
    unfold wrmsr normCpu
    simp [hfail]
  unfold rmsDestroy
  rw [if_neg (by simp [hinit, hitems]), if_pos hav]
  unfold msrBroadcast
  rw [hn]
  have hcl : cpuList (n + 1) = 0 :: (List.range n).map (fun i => Int.ofNat (i + 1)) := by
    unfold cpuList
    rw [List.range_succ_eq_map]
    simp
  rw [hcl]
  unfold forEachCpuGo
  rw [hstep]
  simp [hn]

/-- C2 witness: the amended statement applied to the concrete failing backend
`bC2` and backup `stC2`. -/
theorem c2_restore_stops_at_first_failure_witness :
    rmsDestroy stC2 bC2 =
      (⟨false, false, stC2.m_cache_qos, []⟩,
       { bC2 with writes := bC2.writes ++ [(0, 0xC0011020, 5)] }) :=
  c2_restore_stops_at_first_failure stC2 bC2 1
    ⟨0xC0011020, 5, kNoMask⟩ [⟨0xC0011021, 6, kNoMask⟩]
    rfl rfl rfl rfl rfl rfl

/-- C3 counterexample: `Init` failed (state Disabled: initialized, not
enabled), yet the subsequent `Destroy` issues four further register writes —
it replays the retained backup — contradicting "performs no register writes
at all" for the state reached when `Init` failed. -/
theorem c3_counterexample :
    c3run.1 = false ∧
    c3run.2.1.m_initialized = true ∧
    c3run.2.1.m_enabled = false ∧
    (rmsDestroy c3run.2.1 c3run.2.2).2.writes =
      c3run.2.2.writes ++
        [(0, 0xC0011020, 0), (0, 0xC0011021, 0),
         (0, 0xC0011022, 0), (0, 0xC001102b, 0)] :=
  ⟨rfl, rfl, rfl, rfl⟩

/-- C3 (amended): `Destroy` performs no register writes when the controller
is Uninitialized or when the backup set is empty — which covers the Disabled
states reached when `Init` found no preset or aborted on a backup read
failure, but not the Disabled state reached when the broadcast apply failed,
where the backup is retained and `Destroy` does write. -/
theorem c3_destroy_noop_when_uninitialized_or_no_backup (st : MsrState) (b : Backend)
    (h : st.m_initialized = false ∨ st.original_msrs = []) :
    rmsDestroy st b = (st, b) := by
  unfold rmsDestroy
  rw [if_pos]
  rcases h with h1 | h2
  · exact Or.inl (by simp [h1])
  · exact Or.inr (by simp [h2])

/-- C3 witness: `Destroy` on the initial (Uninitialized) state is a no-op on
a concrete backend. -/
theorem c3_destroy_noop_witness :
    rmsDestroy initialMsrState bC3 = (initialMsrState, bC3) :=
  c3_destroy_noop_when_uninitialized_or_no_backup initialMsrState bC3 (Or.inl rfl)

/-- C4 counterexample: after an `Init` that failed because a backup read
failed, a later `Init` on a fully working backend (every read and write
succeeds on `bC4b`) still returns false and performs no device operation at
all (the backend comes back untouched) — the failure is not recoverable by
retrying `Init` in the same process. -/
theorem c4_counterexample :
    c4run1.1 = false ∧
    c4run1.2.1.m_initialized = true ∧
    bC4b.readOk = (fun _ _ => true) ∧
    bC4b.writeOk = (fun _ _ => true) ∧
    (rmsInit .amd 0x800F00 [] false c4run1.2.1 bC4b).1 = false ∧
    (rmsInit .amd 0x800F00 [] false c4run1.2.1 bC4b).2.2 = bC4b :=
  ⟨rfl, rfl, rfl, rfl, rfl, rfl⟩

/-- Every path through `Init` leaves `m_initialized` set and records the
returned boolean in `m_enabled`. -/
theorem rmsInit_post (vendor : CPUVendor) (eax : Nat) (affin : List Int)
    (q : Bool) (st : MsrState) (b : Backend) :
    (rmsInit vendor eax affin q st b).2.1.m_initialized = true ∧
    (rmsInit vendor eax affin q st b).2.1.m_enabled
      = (rmsInit vendor eax affin q st b).1 := by
  unfold rmsInit
  split
  · next h => exact ⟨h, rfl⟩
  · dsimp only
    split
    · exact ⟨rfl, rfl⟩
    · split
      · exact ⟨rfl, rfl⟩
      · exact ⟨rfl, rfl⟩

/-- `Init` on an already-initialized state returns the cached result without
doing anything. -/
theorem rmsInit_of_initialized (vendor : CPUVendor) (eax : Nat)
    (affin : List Int) (q : Bool) (st : MsrState) (b : Backend)
    (h : st.m_initialized = true) :
    rmsInit vendor eax affin q st b = (st.m_enabled, st, b) := by
  unfold rmsInit
  rw [if_pos h]

/-- C4 (amended): `Init` is one-shot per process: whatever a first `Init`
call returned — in particular false after a backup read failure — any later
`Init` call (with any arguments, on any backend, e.g. one where every read
and write succeeds) returns that same cached boolean, leaves the state
unchanged and touches no register device. -/
theorem c4_init_not_retryable (vendor : CPUVendor) (eax : Nat)
    (affin : List Int) (q : Bool) (st : MsrState) (b : Backend)
    (vendor2 : CPUVendor) (eax2 : Nat) (affin2 : List Int) (q2 : Bool)
    (b2 : Backend) :
    rmsInit vendor2 eax2 affin2 q2 (rmsInit vendor eax affin q st b).2.1 b2
      = ((rmsInit vendor eax affin q st b).1,
         (rmsInit vendor eax affin q st b).2.1, b2) := by
  obtain ⟨h1, h2⟩ := rmsInit_post vendor eax affin q st b
  rw [rmsInit_of_initialized vendor2 eax2 affin2 q2 _ b2 h1, h2]

/-- C6: if any backup read of the selected preset fails during `Init`, the
whole operation aborts atomically: `Init` returns false, the controller is
Disabled (initialized, not enabled) with the partial backup cleared, and the
backend is returned exactly as it was — no register write was issued to any
logical CPU (the write trace is unchanged). -/
theorem c6_backup_read_failure_aborts_atomically (vendor : CPUVendor) (eax : Nat)
    (affin : List Int) (q : Bool) (st : MsrState) (b : Backend)
    (hinit : st.m_initialized = false)
    (hav : b.available = true)
    (hfail : ∃ it ∈ msrPresets (detectMsrMod vendor eax),
      (msrRead b it.reg (-1)).isValid = false) :
    rmsInit vendor eax affin q st b = (false, ⟨true, false, q, []⟩, b) := by
  obtain ⟨it, hmem, hinv⟩ := hfail
  have hne : msrPresets (detectMsrMod vendor eax) ≠ [] := by
    intro h
    rw [h] at hmem
    exact absurd hmem (List.not_mem_nil it)
  have hmod : detectMsrMod vendor eax ≠ .modNone := by
    intro h
    rw [h] at hne
    exact hne rfl
  have hbl : backupLoop b (msrPresets (detectMsrMod vendor eax)) = none :=
    backupLoop_eq_none b _ ⟨it, hmem, hinv⟩
  unfold rmsInit
  rw [if_neg (by simp [hinit])]
  try dsimp only
  rw [if_neg hmod]
  try dsimp only
  rw [if_neg (by simp [List.isEmpty_iff, hne])]
  try dsimp only
  unfold applyMsrPreset
  rw [if_pos hav, hbl]

/-- C6 witness: on the concrete backend `bC6` (backup read of 0xC0011022
fails) `Init` for AMD family 0x17 aborts atomically. -/
theorem c6_backup_read_failure_witness :
    rmsInit .amd 0x800F00 [3] true initialMsrState bC6
      = (false, ⟨true, false, true, []⟩, bC6) :=
  c6_backup_read_failure_aborts_atomically .amd 0x800F00 [3] true initialMsrState bC6
    rfl rfl ⟨⟨0xC0011022, 0x1510000, kNoMask⟩, by decide, by decide⟩

/-!
Machinery for the round-trip claim: the broadcast loops preserve the backend's
environment (availability, success predicates, cpu count, CAT-L3 bit), and
under an all-successful backend the apply loop only changes registers of the
broadcast cpus at preset indices while the restore loop deterministically
rewrites each backed-up register to its backup value.
-/

theorem sameEnv_refl (b : Backend) : sameEnv b b := ⟨rfl, rfl, rfl, rfl, rfl⟩

theorem sameEnv_trans {a b c : Backend} (h1 : sameEnv a b) (h2 : sameEnv b c) :
    sameEnv a c :=
  ⟨h2.1.trans h1.1, h2.2.1.trans h1.2.1, h2.2.2.1.trans h1.2.2.1,
   h2.2.2.2.1.trans h1.2.2.2.1, h2.2.2.2.2.trans h1.2.2.2.2⟩

theorem allOk_of_sameEnv {b b2 : Backend} (h : sameEnv b b2) (hA : allOk b) :
    allOk b2 := by
  refine ⟨h.1.trans hA.1, ?_, ?_⟩
  · intro c r
    rw [h.2.1]
    exact hA.2.1 c r
  · intro c r
    rw [h.2.2.1]
    exact hA.2.2 c r

theorem wrmsr_sameEnv (b : Backend) (reg v : Nat) (cpu : Int) :
    sameEnv b (wrmsr b reg v cpu).2 := by
  unfold wrmsr
  dsimp only
  split <;> exact ⟨rfl, rfl, rfl, rfl, rfl⟩

theorem msrWrite_sameEnv (b : Backend) (reg v : Nat) (cpu : Int) (mask : Nat) :
    sameEnv b (msrWrite b reg v cpu mask).2 := by
  unfold msrWrite
  split
  · split
    · split
      · exact sameEnv_refl b
      · apply wrmsr_sameEnv
    · apply wrmsr_sameEnv
  · exact sameEnv_refl b

theorem msrWriteItem_sameEnv (b : Backend) (it : MsrItem) (cpu : Int) :
    sameEnv b (msrWriteItem b it cpu).2 :=
  msrWrite_sameEnv b it.reg it.value cpu it.mask

theorem writeItemsLoop_sameEnv (items : List MsrItem) :
    ∀ (cpu : Int) (b : Backend), sameEnv b (writeItemsLoop items cpu b).2 := by
  induction items with
  | nil => intro cpu b; exact sameEnv_refl b
  | cons it rest ih =>
    intro cpu b
    unfold writeItemsLoop
    cases h : msrWriteItem b it cpu with
    | mk ok b1 =>
      have h1 : sameEnv b b1 := by
        have := msrWriteItem_sameEnv b it cpu
        rw [h] at this
        exact this
      cases ok
      · exact h1
      · exact sameEnv_trans h1 (ih cpu b1)

/-- With cache QoS off, the broadcast callback of `ApplyMsrPreset` is exactly
the preset item loop. -/
theorem applyCpu_noQos (preset : List MsrItem) (affin : List Int) (cpu : Int)
    (b : Backend) :
    applyCpu preset affin false cpu b = writeItemsLoop preset cpu b := by
  unfold applyCpu
  cases h : writeItemsLoop preset cpu b with
  | mk ok b1 => cases ok <;> rfl

theorem wrmsr_ok {b : Backend} (hA : allOk b) (reg v : Nat) (cpu : Int) :
    wrmsr b reg v cpu =
      (true, { b with regs := setReg b.regs (normCpu cpu) reg v,
                      writes := b.writes ++ [(normCpu cpu, reg, v)] }) := by
  unfold wrmsr
  dsimp only
  rw [if_pos (hA.2.2 (normCpu cpu) reg)]

theorem rdmsr_ok {b : Backend} (hA : allOk b) (reg : Nat) (cpu : Int) :
    rdmsr b reg cpu = some (b.regs (normCpu cpu) reg) := by
  unfold rdmsr
  dsimp only
  rw [if_pos (hA.2.1 (normCpu cpu) reg)]

/-- Under an all-successful backend, a single `Msr::write` succeeds and only
the targeted (cpu, register) cell of the register file changes. -/
theorem msrWrite_ok {b : Backend} (hA : allOk b) (reg v : Nat) (cpu : Int)
    (mask : Nat) :
    (msrWrite b reg v cpu mask).1 = true ∧
    ∀ (c2 : Int) (r2 : Nat), ¬(c2 = normCpu cpu ∧ r2 = reg) →
      (msrWrite b reg v cpu mask).2.regs c2 r2 = b.regs c2 r2 := by
  unfold msrWrite
  rw [if_pos hA.1]
  split
  · rw [rdmsr_ok hA reg cpu]
    dsimp only
    rw [wrmsr_ok hA reg (maskedValue (b.regs (normCpu cpu) reg) v mask) cpu]
    exact ⟨rfl, fun c2 r2 hne => by dsimp only; unfold setReg; rw [if_neg hne]⟩
  · rw [wrmsr_ok hA reg v cpu]
    exact ⟨rfl, fun c2 r2 hne => by dsimp only; unfold setReg; rw [if_neg hne]⟩

/-- Under an all-successful backend, the preset item loop on one cpu succeeds
and leaves every register cell outside (that cpu) × (preset registers)
unchanged. -/
theorem writeItemsLoop_ok (items : List MsrItem) :
    ∀ (cpu : Int) (b : Backend), allOk b →
      (writeItemsLoop items cpu b).1 = true ∧
      ∀ (c2 : Int) (r2 : Nat),
        (c2 ≠ normCpu cpu ∨ r2 ∉ items.map (fun it => it.reg)) →
        (writeItemsLoop items cpu b).2.regs c2 r2 = b.regs c2 r2 := by
  induction items with
  | nil =>
    intro cpu b _
    exact ⟨rfl, fun _ _ _ => rfl⟩
  | cons it rest ih =>
    intro cpu b hA
    obtain ⟨hs, hframe⟩ := msrWrite_ok hA it.reg it.value cpu it.mask
    unfold writeItemsLoop
    cases h : msrWriteItem b it cpu with
    | mk ok b1 =>
      have h' : msrWrite b it.reg it.value cpu it.mask = (ok, b1) := h
      have hok : ok = true := by
        rw [h'] at hs
        exact hs
      subst hok
      have hE : sameEnv b b1 := by
        have := msrWriteItem_sameEnv b it cpu
        rw [h] at this
        exact this
      obtain ⟨ih1, ih2⟩ := ih cpu b1 (allOk_of_sameEnv hE hA)
      refine ⟨ih1, ?_⟩
      intro c2 r2 hcond
      have hcond2 : (c2 ≠ normCpu cpu ∨ r2 ∉ rest.map (fun it => it.reg)) ∧
          ¬(c2 = normCpu cpu ∧ r2 = it.reg) := by
        rcases hcond with hc | hr
        · exact ⟨Or.inl hc, fun hand => hc hand.1⟩
        · rw [List.map_cons, List.mem_cons] at hr
          push_neg at hr
          exact ⟨Or.inr hr.2, fun hand => hr.1 hand.2⟩
      rw [ih2 c2 r2 hcond2.1]
      have hfr := hframe c2 r2 hcond2.2
      rw [h'] at hfr
      exact hfr

/-- Under an all-successful backend, the restore loop (every item unmasked)
on one cpu succeeds and sets each register of that cpu to the last backup
value for it, leaving all other cells unchanged. -/
theorem writeItemsLoop_raw (items : List MsrItem) :
    ∀ (cpu : Int) (b : Backend), allOk b → (∀ it ∈ items, it.mask = kNoMask) →
      (writeItemsLoop items cpu b).1 = true ∧
      ∀ (c2 : Int) (r2 : Nat),
        (writeItemsLoop items cpu b).2.regs c2 r2 =
          if c2 = normCpu cpu then (lastValue items r2).getD (b.regs c2 r2)
          else b.regs c2 r2 := by
  induction items with
  | nil =>
    intro cpu b _ _
    refine ⟨rfl, fun c2 r2 => ?_⟩
    show b.regs c2 r2 =
      if c2 = normCpu cpu then (lastValue [] r2).getD (b.regs c2 r2) else b.regs c2 r2
    simp [lastValue]
  | cons it rest ih =>
    intro cpu b hA hm
    have hmask : it.mask = kNoMask := hm it (List.mem_cons_self it rest)
    have hstep : msrWriteItem b it cpu =
        (true, { b with regs := setReg b.regs (normCpu cpu) it.reg it.value,
                        writes := b.writes ++ [(normCpu cpu, it.reg, it.value)] }) := by
      unfold msrWriteItem msrWrite
      rw [if_pos hA.1, if_neg (by rw [hmask]; simp)]
      exact wrmsr_ok hA it.reg it.value cpu
    unfold writeItemsLoop
    rw [hstep]
    have hA1 : allOk { b with regs := setReg b.regs (normCpu cpu) it.reg it.value,
                              writes := b.writes ++ [(normCpu cpu, it.reg, it.value)] } :=
      ⟨hA.1, hA.2.1, hA.2.2⟩
    obtain ⟨ih1, ih2⟩ := ih cpu _ hA1 (fun x hx => hm x (List.mem_cons_of_mem it hx))
    refine ⟨ih1, ?_⟩
    intro c2 r2
    rw [ih2 c2 r2]
    by_cases hc : c2 = normCpu cpu
    · rw [if_pos hc, if_pos hc]
      show (lastValue rest r2).getD (setReg b.regs (normCpu cpu) it.reg it.value c2 r2)
          = (lastValue (it :: rest) r2).getD (b.regs c2 r2)
      simp only [lastValue]
      cases hl : lastValue rest r2 with
      | some v => rfl
      | none =>
        unfold setReg
        by_cases hr : it.reg = r2
        · rw [if_pos hr, if_pos ⟨hc, hr.symm⟩]
          rfl
        · rw [if_neg hr, if_neg (fun hand => hr hand.2.symm)]
    · rw [if_neg hc, if_neg hc]
      show setReg b.regs (normCpu cpu) it.reg it.value c2 r2 = b.regs c2 r2
      unfold setReg
      rw [if_neg (fun hand => hc hand.1)]

/-- Every cpu id produced by `GetCPUList` is nonnegative. -/
theorem cpuList_nonneg (n : Nat) : ∀ c ∈ cpuList n, 0 ≤ c := by
  intro c hc
  unfold cpuList at hc
  obtain ⟨m, _, rfl⟩ := List.mem_map.mp hc
  exact Int.ofNat_nonneg m

/-- Under an all-successful backend, the no-QoS apply broadcast over a list of
nonnegative cpu ids succeeds, keeps the environment, and leaves every register
cell outside (broadcast cpus) × (preset registers) unchanged. -/
theorem forEachApply (preset : List MsrItem) (affin : List Int) :
    ∀ (cpus : List Int) (b : Backend), allOk b → (∀ c ∈ cpus, 0 ≤ c) →
      (forEachCpuGo (applyCpu preset affin false) cpus b).1 = true ∧
      sameEnv b (forEachCpuGo (applyCpu preset affin false) cpus b).2 ∧
      ∀ (c2 : Int) (r2 : Nat),
        (c2 ∉ cpus ∨ r2 ∉ preset.map (fun it => it.reg)) →
        (forEachCpuGo (applyCpu preset affin false) cpus b).2.regs c2 r2
          = b.regs c2 r2 := by
  intro cpus
  induction cpus with
  | nil =>
    intro b _ _
    exact ⟨rfl, sameEnv_refl b, fun _ _ _ => rfl⟩
  | cons c rest ih =>
    intro b hA hge
    obtain ⟨h1, h2⟩ := writeItemsLoop_ok preset c b hA
    unfold forEachCpuGo
    rw [applyCpu_noQos]
    cases hw : writeItemsLoop preset c b with
    | mk ok b1 =>
      have hok : ok = true := by rw [hw] at h1; exact h1
      subst hok
      have hE : sameEnv b b1 := by
        have := writeItemsLoop_sameEnv preset c b
        rw [hw] at this
        exact this
      obtain ⟨ih1, ih2, ih3⟩ :=
        ih b1 (allOk_of_sameEnv hE hA) (fun x hx => hge x (List.mem_cons_of_mem c hx))
      refine ⟨ih1, sameEnv_trans hE ih2, ?_⟩
      intro c2 r2 hcond
      have hc2rest : c2 ∉ rest ∨ r2 ∉ preset.map (fun it => it.reg) := by
        rcases hcond with hcm | hrm
        · exact Or.inl (fun hx => hcm (List.mem_cons_of_mem c hx))
        · exact Or.inr hrm
      rw [ih3 c2 r2 hc2rest]
      have hcframe : c2 ≠ normCpu c ∨ r2 ∉ preset.map (fun it => it.reg) := by
        rcases hcond with hcm | hrm
        · refine Or.inl ?_
          have hnc : normCpu c = c := by
            unfold normCpu
            rw [if_neg (not_lt.mpr (hge c (List.mem_cons_self c rest)))]
          rw [hnc]
          intro hcc
          exact hcm (hcc ▸ List.mem_cons_self c rest)
        · exact Or.inr hrm
      have hfr := h2 c2 r2 hcframe
      rw [hw] at hfr
      exact hfr

/-- Under an all-successful backend, the restore broadcast (raw backup items)
over a list of nonnegative cpu ids sets, on every broadcast cpu, each
backed-up register to its (last) backup value, and changes nothing else. -/
theorem forEachRestore (items : List MsrItem)
    (hmaskAll : ∀ it ∈ items, it.mask = kNoMask) :
    ∀ (cpus : List Int) (b : Backend), allOk b → (∀ c ∈ cpus, 0 ≤ c) →
      (forEachCpuGo (fun cpu bb => writeItemsLoop items cpu bb) cpus b).1 = true ∧
      ∀ (c2 : Int) (r2 : Nat),
        (forEachCpuGo (fun cpu bb => writeItemsLoop items cpu bb) cpus b).2.regs c2 r2
          = if c2 ∈ cpus then (lastValue items r2).getD (b.regs c2 r2)
            else b.regs c2 r2 := by
  intro cpus
  induction cpus with
  | nil =>
    intro b _ _
    refine ⟨rfl, fun c2 r2 => ?_⟩
    show b.regs c2 r2 =
      if c2 ∈ ([] : List Int) then (lastValue items r2).getD (b.regs c2 r2)
      else b.regs c2 r2
    simp
  | cons c rest ih =>
    intro b hA hge
    obtain ⟨h1, h2⟩ := writeItemsLoop_raw items c b hA hmaskAll
    unfold forEachCpuGo
    cases hw : writeItemsLoop items c b with
    | mk ok b1 =>
      have hok : ok = true := by rw [hw] at h1; exact h1
      subst hok
      have hE : sameEnv b b1 := by
        have := writeItemsLoop_sameEnv items c b
        rw [hw] at this
        exact this
      obtain ⟨ih1, ih2⟩ :=
        ih b1 (allOk_of_sameEnv hE hA) (fun x hx => hge x (List.mem_cons_of_mem c hx))
      refine ⟨ih1, ?_⟩
      intro c2 r2
      rw [ih2 c2 r2]
      have hnc : normCpu c = c := by
        unfold normCpu
        rw [if_neg (not_lt.mpr (hge c (List.mem_cons_self c rest)))]
      have hb1 : ∀ (x : Int) (y : Nat), b1.regs x y =
          if x = c then (lastValue items y).getD (b.regs x y) else b.regs x y := by
        intro x y
        have := h2 x y
        rw [hw, hnc] at this
        exact this
      by_cases hmem : c2 ∈ rest
      · rw [if_pos hmem, if_pos (List.mem_cons_of_mem c hmem)]
        cases hl : lastValue items r2 with
        | some v => simp [hl]
        | none =>
          simp only [hl, Option.getD_none]
          rw [hb1 c2 r2, hl]
          split <;> rfl
      · by_cases hc2 : c2 = c
        · rw [if_neg hmem, if_pos (by rw [hc2]; exact List.mem_cons_self c rest)]
          rw [hb1 c2 r2, if_pos hc2]
        · rw [if_neg hmem, if_neg (by simp [hc2, hmem])]
          rw [hb1 c2 r2, if_neg hc2]

/-- When every device read succeeds and every preset register index is
nonzero, the backup loop captures each preset register's cpu-0 value
(register index, current value, no mask), in preset order. -/
theorem backupLoop_all_valid (b : Backend) (hr : ∀ c r, b.readOk c r = true) :
    ∀ preset : List MsrItem, (∀ it ∈ preset, 0 < it.reg) →
      backupLoop b preset
        = some (preset.map fun it => (⟨it.reg, b.regs 0 it.reg, kNoMask⟩ : MsrItem)) := by
  intro preset
  induction preset with
  | nil => intro _; rfl
  | cons it rest ih =>
    intro hv
    have hnorm : normCpu (-1) = 0 := by decide
    have hread : msrRead b it.reg (-1) = ⟨it.reg, b.regs 0 it.reg, kNoMask⟩ := by
      unfold msrRead rdmsr
      rw [hnorm, if_pos (hr 0 it.reg)]
    have hval : (⟨it.reg, b.regs 0 it.reg, kNoMask⟩ : MsrItem).isValid = true :=
      decide_eq_true (hv it (List.mem_cons_self it rest))
    unfold backupLoop
    rw [hread]
    simp only [hval, if_true, ih (fun x hx => hv x (List.mem_cons_of_mem it hx))]
    rfl

/-- The last value a raw backup list (each register paired with a fixed
per-register value `g r`) writes for register `r`: `g r` when `r` is one of
the backed-up registers, nothing otherwise. -/
theorem lastValue_backup (g : Nat → Nat) :
    ∀ (preset : List MsrItem) (r : Nat),
      lastValue (preset.map fun it => (⟨it.reg, g it.reg, kNoMask⟩ : MsrItem)) r
        = if r ∈ preset.map (fun it => it.reg) then some (g r) else none := by
  intro preset
  induction preset with
  | nil =>
    intro r
    simp [lastValue]
  | cons it rest ih =>
    intro r
    simp only [List.map_cons, lastValue, ih r]
    by_cases hmem : r ∈ rest.map (fun it => it.reg)
    · simp [List.mem_cons, hmem]
    · by_cases hr : it.reg = r
      · simp [List.mem_cons, hmem, hr]
      · have hr2 : ¬r = it.reg := fun h => hr h.symm
        simp [List.mem_cons, hmem, hr, hr2]

/-- Every register index appearing in the static preset table is nonzero. -/
theorem msrPresets_valid : ∀ m : MsrMod, ∀ it ∈ msrPresets m, 0 < it.reg := by
  intro m
  cases m <;> decide

/-- Every item captured by the backup loop carries the no-mask sentinel. -/
theorem backup_items_unmasked (g : Nat → Nat) (preset : List MsrItem) :
    ∀ it ∈ preset.map (fun it => (⟨it.reg, g it.reg, kNoMask⟩ : MsrItem)),
      it.mask = kNoMask := by
  intro it hit
  obtain ⟨y, _, rfl⟩ := List.mem_map.mp hit
  rfl

/-- Apply-then-restore on a homogeneous all-successful backend: with an empty
affinity list (so the cache-QoS branch is skipped), `ApplyMsrPreset` succeeds
and the subsequent `Destroy` broadcast returns every preset register on every
cpu to its pre-apply value. -/
theorem roundtrip_core (preset : List MsrItem) (q : Bool) (b : Backend)
    (hA : allOk b)
    (hom : ∀ (c : Int) (r : Nat), b.regs c r = b.regs 0 r)
    (hv : ∀ it ∈ preset, 0 < it.reg) :
    (applyMsrPreset preset [] q [] b).1 = true ∧
    ∀ (c2 : Int) (r2 : Nat), r2 ∈ preset.map (fun it => it.reg) →
      (rmsDestroy ⟨true, (applyMsrPreset preset [] q [] b).1, q,
                   (applyMsrPreset preset [] q [] b).2.1⟩
        (applyMsrPreset preset [] q [] b).2.2).2.regs c2 r2 = b.regs c2 r2 := by
  have hbl := backupLoop_all_valid b hA.2.1 preset hv
  have happly : applyMsrPreset preset [] q [] b =
      ((forEachCpuGo (applyCpu preset [] false) (cpuList b.numCpus) b).1,
       preset.map (fun it => (⟨it.reg, b.regs 0 it.reg, kNoMask⟩ : MsrItem)),
       (forEachCpuGo (applyCpu preset [] false) (cpuList b.numCpus) b).2) := by
    unfold applyMsrPreset
    rw [if_pos hA.1, hbl]
    simp [msrBroadcast]
  obtain ⟨ha1, haE, haF⟩ :=
    forEachApply preset [] (cpuList b.numCpus) b hA (cpuList_nonneg b.numCpus)
  rw [happly]
  dsimp only
  rw [ha1]
  refine ⟨rfl, ?_⟩
  intro c2 r2 hmem
  have hpne : preset ≠ [] := by
    intro h
    rw [h] at hmem
    simp at hmem
  have hbe : (preset.map
      (fun it => (⟨it.reg, b.regs 0 it.reg, kNoMask⟩ : MsrItem))).isEmpty = false := by
    cases hl : preset.map (fun it => (⟨it.reg, b.regs 0 it.reg, kNoMask⟩ : MsrItem)) with
    | nil =>
      rw [List.map_eq_nil_iff] at hl
      exact absurd hl hpne
    | cons a l => rfl
  have hA1 : allOk (forEachCpuGo (applyCpu preset [] false) (cpuList b.numCpus) b).2 :=
    allOk_of_sameEnv haE hA
  obtain ⟨hr1, hr2⟩ := forEachRestore
    (preset.map (fun it => (⟨it.reg, b.regs 0 it.reg, kNoMask⟩ : MsrItem)))
    (backup_items_unmasked (b.regs 0) preset)
    (cpuList b.numCpus)
    (forEachCpuGo (applyCpu preset [] false) (cpuList b.numCpus) b).2 hA1
    (cpuList_nonneg b.numCpus)
  have hnum : (forEachCpuGo (applyCpu preset [] false) (cpuList b.numCpus) b).2.numCpus
      = b.numCpus := haE.2.2.2.1
  have hdes : rmsDestroy
      ⟨true, true, q, preset.map (fun it => (⟨it.reg, b.regs 0 it.reg, kNoMask⟩ : MsrItem))⟩
      (forEachCpuGo (applyCpu preset [] false) (cpuList b.numCpus) b).2 =
      (⟨false, false, q, []⟩,
       (forEachCpuGo
         (fun cpu bb => writeItemsLoop
           (preset.map (fun it => (⟨it.reg, b.regs 0 it.reg, kNoMask⟩ : MsrItem))) cpu bb)
         (cpuList b.numCpus)
         (forEachCpuGo (applyCpu preset [] false) (cpuList b.numCpus) b).2).2) := by
    unfold rmsDestroy
    rw [if_neg (by simp [hbe])]
    rw [if_pos (haE.1.trans hA.1)]
    unfold msrBroadcast
    rw [hnum]
  rw [hdes]
  dsimp only
  rw [hr2 c2 r2]
  by_cases hcm : c2 ∈ cpuList b.numCpus
  · rw [if_pos hcm, lastValue_backup (b.regs 0) preset r2, if_pos hmem]
    show b.regs 0 r2 = b.regs c2 r2
    exact (hom c2 r2).symm
  · rw [if_neg hcm]
    exact haF c2 r2 (Or.inl hcm)

/-- C7 counterexample: on a backend where all reads and writes succeed but
cpu 1's pre-Init value of preset register 0xC0011020 (200) differs from
cpu 0's (100), `Init` succeeds, yet after `Destroy` cpu 1 holds 100 — the
backup captured from cpu 0 — not its own pre-Init value 200. -/
theorem c7_counterexample :
    c7run.1 = true ∧
    bC7.regs 1 0xC0011020 = 200 ∧
    (rmsDestroy c7run.2.1 c7run.2.2).2.regs 1 0xC0011020 = 100 :=
  ⟨rfl, rfl, rfl⟩

/-- C7 (amended): on a register backend where all reads and writes succeed
and the logical CPUs are homogeneous (each register holds the same pre-Init
value on every cpu), running `Init` (with an empty affinity list, so no
cache-QoS writes) followed by `Destroy` leaves every register touched by the
selected preset equal to its pre-Init value, on every cpu; moreover `Init`
reports success whenever a preset was selected. -/
theorem c7_roundtrip_on_homogeneous_backend (vendor : CPUVendor) (eax : Nat)
    (q : Bool) (b : Backend)
    (hav : b.available = true)
    (hrd : ∀ c r, b.readOk c r = true)
    (hwr : ∀ c r, b.writeOk c r = true)
    (hom : ∀ c r, b.regs c r = b.regs 0 r) :
    (msrPresets (detectMsrMod vendor eax) ≠ [] →
      (rmsInit vendor eax [] q initialMsrState b).1 = true) ∧
    ∀ (c : Int) (r : Nat),
      r ∈ (msrPresets (detectMsrMod vendor eax)).map (fun it => it.reg) →
      (rmsDestroy (rmsInit vendor eax [] q initialMsrState b).2.1
        (rmsInit vendor eax [] q initialMsrState b).2.2).2.regs c r
        = b.regs c r := by
  have hA : allOk b := ⟨hav, hrd, hwr⟩
  by_cases hp : msrPresets (detectMsrMod vendor eax) = []
  · have hinit : rmsInit vendor eax [] q initialMsrState b
        = (false, ⟨true, false, q, []⟩, b) := by
      unfold rmsInit
      rw [if_neg (by simp [initialMsrState])]
      try dsimp only
      by_cases hm : detectMsrMod vendor eax = .modNone
      · rw [if_pos hm]
        rfl
      · rw [if_neg hm]
        try dsimp only
        rw [if_pos (by simp [hp])]
        rfl
    refine ⟨fun hne => absurd hp hne, ?_⟩
    intro c r hmem
    rw [hp] at hmem
    simp at hmem
  · have hmod : detectMsrMod vendor eax ≠ .modNone := by
      intro h
      rw [h] at hp
      exact hp rfl
    have hinit : rmsInit vendor eax [] q initialMsrState b
        = ((applyMsrPreset (msrPresets (detectMsrMod vendor eax)) [] q [] b).1,
           ⟨true, (applyMsrPreset (msrPresets (detectMsrMod vendor eax)) [] q [] b).1, q,
            (applyMsrPreset (msrPresets (detectMsrMod vendor eax)) [] q [] b).2.1⟩,
           (applyMsrPreset (msrPresets (detectMsrMod vendor eax)) [] q [] b).2.2) := by
      unfold rmsInit
      rw [if_neg (by simp [initialMsrState])]
      try dsimp only
      rw [if_neg hmod]
      try dsimp only
      rw [if_neg (by simp [List.isEmpty_iff, hp])]
      rfl
    obtain ⟨hc1, hc2⟩ :=
      roundtrip_core (msrPresets (detectMsrMod vendor eax)) q b hA hom
        (msrPresets_valid (detectMsrMod vendor eax))
    rw [hinit]
    exact ⟨fun _ => hc1, fun c r hmem => hc2 c r hmem⟩

/-- C7 witness: the amended round-trip applied on the concrete homogeneous
backend `bC7w` at preset register 0xC0011020 of cpu 1. -/
theorem c7_roundtrip_on_homogeneous_backend_witness :
    (rmsDestroy (rmsInit .amd 0x800F00 [] false initialMsrState bC7w).2.1
      (rmsInit .amd 0x800F00 [] false initialMsrState bC7w).2.2).2.regs 1 0xC0011020
      = bC7w.regs 1 0xC0011020 :=
  (c7_roundtrip_on_homogeneous_backend .amd 0x800F00 false bC7w rfl
    (fun _ _ => rfl) (fun _ _ => rfl) (fun _ _ => rfl)).2 1 0xC0011020 (by decide)

end JunoMsr
